import Mathlib

/-!
# Verification of the stock-ledger core of `dbms_inventory_management`

Shallow embedding of `src/app.py` (a Flask + MongoDB inventory app).
MongoDB documents become Lean structures; each collection is a `List`;
each route handler's POST branch becomes a pure function from the
database state (plus the parsed form fields) to a new state and a
result.  Python's unbounded `int` is `Int`.  Mongo `ObjectId`s are
modelled as `Nat` (only equality of ids matters to the core).
-/

namespace Inventory

/-- A document of the `products` collection (`add_product`, app.py:146-152).
`category` is `none` when the field is absent; the code also treats the
empty string as unset (`p.get('category') or 'Uncategorized'`).
`unit_price` is a float the core never reads, so it is omitted. -/
structure Product where
  id : Nat
  sku : String
  name : String
  category : Option String
  reorder_level : Int
  deriving Repr, DecidableEq

/-- A document of the `suppliers` collection (app.py:182-187); contact
fields are never read by the core. -/
structure Supplier where
  id : Nat
  name : String
  deriving Repr, DecidableEq

/-- A document of the `warehouses` collection (app.py:221-225). -/
structure Warehouse where
  id : Nat
  name : String
  location : String
  code : String
  deriving Repr, DecidableEq

/-- A document of the `stock_levels` collection: one quantity per
(product, warehouse) pair, created by the upsert at app.py:302-306. -/
structure StockEntry where
  product_id : Nat
  warehouse_id : Nat
  quantity : Int
  deriving Repr, DecidableEq

/-- A document of the `purchase_orders` collection (app.py:289-295). -/
structure PurchaseOrder where
  supplier_id : Nat
  product_id : Nat
  warehouse_id : Nat
  quantity : Int
  status : String
  deriving Repr, DecidableEq

/-- A document of the `sales_orders` collection (app.py:356-362). -/
structure SalesOrder where
  product_id : Nat
  warehouse_id : Nat
  quantity : Int
  customer_name : String
  status : String
  deriving Repr, DecidableEq

/-- The database state: the six collections the core touches. -/
structure State where
  products : List Product
  suppliers : List Supplier
  warehouses : List Warehouse
  stock : List StockEntry
  purchaseOrders : List PurchaseOrder
  salesOrders : List SalesOrder
  deriving Repr, DecidableEq

/-- The raw `quantity` form field after Python's `int(quantity)`:
either the parse raised `ValueError` or it produced an integer. -/
inductive QtyInput
  | notAnInt
  | intVal (n : Int)
  deriving Repr, DecidableEq

/-- The rejection reasons the two POST handlers can flash.
`invalidQuantity` covers both app.py:283 (`must be an integer`) and
app.py:287/342 (`must be greater than zero`); `insufficientStock`
is app.py:353 (`Insufficient stock for this order.`). -/
inductive SubmitError
  | invalidQuantity
  | insufficientStock
  deriving Repr, DecidableEq

/-- Whether a stock document matches the filter
`{'product_id': pid, 'warehouse_id': wid}` (app.py:298-301, 345-348). -/
def stockMatches (pid wid : Nat) (e : StockEntry) : Bool :=
  e.product_id == pid && e.warehouse_id == wid

/-- `db.stock_levels.find_one(stock_filter)` (app.py:349): the first
matching document, if any. -/
def findStock (stock : List StockEntry) (pid wid : Nat) : Option StockEntry :=
  stock.find? (stockMatches pid wid)

/-- `stock_doc.get('quantity', 0) if stock_doc else 0` (app.py:350),
also the spec interface `getStock(productId, warehouseId)`. -/
def getStock (stock : List StockEntry) (pid wid : Nat) : Int :=
  match findStock stock pid wid with
  | some e => e.quantity
  | none => 0

/-- `update_one(stock_filter, {'$inc': {'quantity': d}})` without
upsert (app.py:365-368): increments the first matching document,
no-op when none matches. -/
def updateIncFirst : List StockEntry → Nat → Nat → Int → List StockEntry
  | [], _, _, _ => []
  | e :: rest, pid, wid, d =>
    if stockMatches pid wid e then
      { e with quantity := e.quantity + d } :: rest
    else
      e :: updateIncFirst rest pid wid d

/-- `update_one(stock_filter, {'$inc': {'quantity': d}}, upsert=True)`
(app.py:302-306): increments the first matching document, or inserts a
fresh one built from the filter with quantity `d` when none matches. -/
def upsertInc (stock : List StockEntry) (pid wid : Nat) (d : Int) : List StockEntry :=
  if (findStock stock pid wid).isSome then
    updateIncFirst stock pid wid d
  else
    stock ++ [⟨pid, wid, d⟩]

/-- The POST branch of the `purchase_orders` route (app.py:274-309):
parse the quantity, reject non-integers and non-positive values,
otherwise insert the order record with status `RECEIVED` and upsert
`$inc` the stock level. -/
def purchase_orders_post (st : State) (supplier_id product_id warehouse_id : Nat)
    (quantity : QtyInput) : State × Except SubmitError PurchaseOrder :=
  match quantity with
  | .notAnInt => (st, .error .invalidQuantity)
  | .intVal n =>
    if n ≤ 0 then
      (st, .error .invalidQuantity)
    else
      let po : PurchaseOrder :=
        ⟨supplier_id, product_id, warehouse_id, n, "RECEIVED"⟩
      let st1 := { st with
        purchaseOrders := st.purchaseOrders ++ [po],
        stock := upsertInc st.stock product_id warehouse_id n }
      (st1, .ok po)

/-- The POST branch of the `sales_orders` route (app.py:329-370):
parse the quantity, reject non-integers and non-positive values, read
the available quantity (0 when no stock document exists), reject when
the request exceeds it, otherwise insert the order record with status
`DISPATCHED` and `$inc` the stock level by the negated quantity. -/
def sales_orders_post (st : State) (product_id warehouse_id : Nat)
    (quantity : QtyInput) (customer_name : String) :
    State × Except SubmitError SalesOrder :=
  match quantity with
  | .notAnInt => (st, .error .invalidQuantity)
  | .intVal n =>
    if n ≤ 0 then
      (st, .error .invalidQuantity)
    else
      let available := getStock st.stock product_id warehouse_id
      if available < n then
        (st, .error .insufficientStock)
      else
        let so : SalesOrder :=
          ⟨product_id, warehouse_id, n, customer_name, "DISPATCHED"⟩
        let st1 := { st with
          salesOrders := st.salesOrders ++ [so],
          stock := updateIncFirst st.stock product_id warehouse_id (-n) }
        (st1, .ok so)

/-- The `$match` + `$group` aggregation over `stock_levels`
(app.py:68-71 and 391-403): `some` of the summed quantities of the
documents matching `product_id`, or `none` when no document matches
(the pipeline then yields no group). -/
def aggregateTotalQty (stock : List StockEntry) (pid : Nat) : Option Int :=
  let matching := stock.filter (fun e => e.product_id == pid)
  if matching.isEmpty then none
  else some ((matching.map (fun e => e.quantity)).sum)

/-- The `total_qty = 0; for s in stock_docs: total_qty = s.get('total_qty', 0)`
loop (app.py:72-74 and 404-406): the group's sum, or 0 when the
aggregation yields nothing. -/
def totalQtyLoop (stock : List StockEntry) (pid : Nat) : Int :=
  (aggregateTotalQty stock pid).getD 0

/-- `p.get('category') or 'Uncategorized'` (app.py:80): an absent or
empty category falls back to `Uncategorized`. -/
def effCategory (p : Product) : String :=
  match p.category with
  | none => "Uncategorized"
  | some c => if c = "" then "Uncategorized" else c

/-- One step of the Python dict accumulation
`category_totals[c] = category_totals.get(c, 0) + total_qty`
(app.py:81), on an association list in insertion order. -/
def addToTotals (acc : List (String × Int)) (c : String) (q : Int) :
    List (String × Int) :=
  if acc.any (fun kv => kv.1 == c) then
    acc.map (fun kv => if kv.1 == c then (kv.1, kv.2 + q) else kv)
  else
    acc ++ [(c, q)]

/-- The `category_totals` dict built by the dashboard loop
(app.py:64-81): fold over all products, adding each product's summed
quantity to its (defaulted) category. -/
def category_totals (st : State) : List (String × Int) :=
  st.products.foldl
    (fun acc p => addToTotals acc (effCategory p) (totalQtyLoop st.stock p.id))
    []

/-- Reading the accumulated dict: the value stored for a category,
0 when the key is absent. -/
def lookupTotal (acc : List (String × Int)) (c : String) : Int :=
  match acc.find? (fun kv => kv.1 == c) with
  | some kv => kv.2
  | none => 0

/-- The `low_stock_count` computed by the dashboard loop (app.py:64-78):
the number of products whose aggregated quantity is strictly below
`p.get('reorder_level', 0)`. -/
def dashboard_low_stock_count (st : State) : Nat :=
  (st.products.filter
    (fun p => totalQtyLoop st.stock p.id < p.reorder_level)).length

/-- An item of the low-stock report (app.py:409-414). -/
structure LowStockItem where
  sku : String
  name : String
  reorder_level : Int
  available_qty : Int
  deriving Repr, DecidableEq

/-- The `low_stock_report` route (app.py:382-416): for each product,
aggregate its total quantity across warehouses and report it when the
total is strictly below the reorder level. -/
def low_stock_report (st : State) : List LowStockItem :=
  st.products.filterMap (fun p =>
    let total_qty := totalQtyLoop st.stock p.id
    if total_qty < p.reorder_level then
      some ⟨p.sku, p.name, p.reorder_level, total_qty⟩
    else
      none)

/-- The Catalog Store lookup `findProductById` (spec section 6); the
collection is the `products` collection of app.py, keyed by `_id`. -/
def findProductById (st : State) (pid : Nat) : Option Product :=
  st.products.find? (fun p => p.id == pid)

/-- The Catalog Store lookup `findSupplierById` (spec section 6). -/
def findSupplierById (st : State) (sid : Nat) : Option Supplier :=
  st.suppliers.find? (fun s => s.id == sid)

/-- The Catalog Store lookup `findWarehouseById` (spec section 6). -/
def findWarehouseById (st : State) (wid : Nat) : Option Warehouse :=
  st.warehouses.find? (fun w => w.id == wid)

/-- One submitted order request: either a purchase-order POST or a
sales-order POST with its form fields. -/
inductive Op
  | purchase (supplier_id product_id warehouse_id : Nat) (q : QtyInput)
  | sale (product_id warehouse_id : Nat) (q : QtyInput) (customer : String)
  deriving Repr, DecidableEq

/-- Apply one order request to the database state, discarding the
flashed result. -/
def applyOp (st : State) : Op → State
  | .purchase sid pid wid q => (purchase_orders_post st sid pid wid q).1
  | .sale pid wid q cust => (sales_orders_post st pid wid q cust).1

/-- Run a sequence of order requests in submission order. -/
def runOps (st : State) (ops : List Op) : State :=
  ops.foldl applyOp st

/-- Sum of the quantities of the recorded purchase orders for one
(product, warehouse) key. -/
def purchaseSum (pos : List PurchaseOrder) (pid wid : Nat) : Int :=
  ((pos.filter (fun o => o.product_id == pid && o.warehouse_id == wid)).map
    (fun o => o.quantity)).sum

/-- Sum of the quantities of the recorded sales orders for one
(product, warehouse) key. -/
def salesSum (sos : List SalesOrder) (pid wid : Nat) : Int :=
  ((sos.filter (fun o => o.product_id == pid && o.warehouse_id == wid)).map
    (fun o => o.quantity)).sum

/-- A state whose order flow starts fresh: empty stock ledger and empty
order collections (the catalog may hold anything). -/
def initState (prods : List Product) (sups : List Supplier)
    (whs : List Warehouse) : State :=
  ⟨prods, sups, whs, [], [], []⟩

/-! ## Ledger lemmas -/

theorem findStock_cons (e : StockEntry) (rest : List StockEntry) (pid wid : Nat) :
    findStock (e :: rest) pid wid
      = if stockMatches pid wid e then some e else findStock rest pid wid := by
  cases he : stockMatches pid wid e <;> simp [findStock, List.find?_cons, he]

theorem getStock_eq_zero_of_none (l : List StockEntry) (pid wid : Nat)
    (h : findStock l pid wid = none) : getStock l pid wid = 0 := by
  simp [getStock, h]

theorem findStock_isSome_of_getStock_ne (l : List StockEntry) (pid wid : Nat)
    (h : getStock l pid wid ≠ 0) : (findStock l pid wid).isSome := by
  cases hf : findStock l pid wid with
  | some e => rfl
  | none => exact absurd (getStock_eq_zero_of_none l pid wid hf) h

theorem updateIncFirst_of_none (l : List StockEntry) (pid wid : Nat) (d : Int)
    (h : findStock l pid wid = none) : updateIncFirst l pid wid d = l := by
  induction l with
  | nil => rfl
  | cons e rest ih =>
    rw [findStock_cons] at h
    cases he : stockMatches pid wid e with
    | true => simp [he] at h
    | false =>
      simp only [he, Bool.false_eq_true, if_false] at h
      simp [updateIncFirst, he, ih h]

theorem getStock_updateIncFirst_of_some (l : List StockEntry) (pid wid : Nat) (d : Int)
    (h : (findStock l pid wid).isSome) :
    getStock (updateIncFirst l pid wid d) pid wid = getStock l pid wid + d := by
  induction l with
  | nil => simp [findStock, List.find?] at h
  | cons e rest ih =>
    rw [findStock_cons] at h
    cases he : stockMatches pid wid e with
    | true =>
      have he' : stockMatches pid wid { e with quantity := e.quantity + d } = true := he
      simp [updateIncFirst, he, getStock, findStock_cons, he']
    | false =>
      simp only [he, Bool.false_eq_true, if_false] at h
      have hrec := ih h
      simp only [getStock] at hrec ⊢
      simp [updateIncFirst, he, findStock_cons, hrec]

theorem getStock_upsertInc_self (l : List StockEntry) (pid wid : Nat) (d : Int) :
    getStock (upsertInc l pid wid d) pid wid = getStock l pid wid + d := by
  unfold upsertInc
  cases hf : findStock l pid wid with
  | some e =>
    simpa [hf] using getStock_updateIncFirst_of_some l pid wid d (by simp [hf])
  | none =>
    have hgz : getStock l pid wid = 0 := by simp [getStock, hf]
    have hfind : List.find? (stockMatches pid wid) l = none := hf
    simp [hf, getStock, findStock, List.find?_append, hfind, List.find?_cons,
      stockMatches, hgz]

theorem stockMatches_other (pidu widu pid wid : Nat) (e : StockEntry)
    (he : stockMatches pidu widu e = true) (h : ¬(pidu = pid ∧ widu = wid)) :
    stockMatches pid wid e = false := by
  simp only [stockMatches, Bool.and_eq_true, beq_iff_eq] at he ⊢
  simp only [Bool.and_eq_false_iff, beq_eq_false_iff_ne, ne_eq]
  omega

theorem getStock_updateIncFirst_other (l : List StockEntry) (pidu widu pid wid : Nat)
    (d : Int) (h : ¬(pidu = pid ∧ widu = wid)) :
    getStock (updateIncFirst l pidu widu d) pid wid = getStock l pid wid := by
  induction l with
  | nil => rfl
  | cons e rest ih =>
    cases he : stockMatches pidu widu e with
    | true =>
      have hne : stockMatches pid wid e = false := stockMatches_other _ _ _ _ e he h
      have hne' : stockMatches pid wid { e with quantity := e.quantity + d } = false := hne
      simp [updateIncFirst, he, getStock, findStock_cons, hne, hne']
    | false =>
      simp only [getStock] at ih ⊢
      cases he' : stockMatches pid wid e <;>
        simp [updateIncFirst, he, findStock_cons, he', ih]

theorem getStock_upsertInc_other (l : List StockEntry) (pidu widu pid wid : Nat)
    (d : Int) (h : ¬(pidu = pid ∧ widu = wid)) :
    getStock (upsertInc l pidu widu d) pid wid = getStock l pid wid := by
  unfold upsertInc
  cases hf : (findStock l pidu widu).isSome with
  | true => simp [getStock_updateIncFirst_other l pidu widu pid wid d h]
  | false =>
    have hnm : stockMatches pid wid (⟨pidu, widu, d⟩ : StockEntry) = false :=
      stockMatches_other pidu widu pid wid _ (by simp [stockMatches]) h
    simp [getStock, findStock, List.find?_append, List.find?_cons, hnm]

/-! ## Order-sum lemmas -/

theorem purchaseSum_append (pos : List PurchaseOrder) (o : PurchaseOrder)
    (pid wid : Nat) :
    purchaseSum (pos ++ [o]) pid wid
      = purchaseSum pos pid wid
        + (if o.product_id == pid && o.warehouse_id == wid then o.quantity else 0) := by
  by_cases h : (o.product_id == pid && o.warehouse_id == wid) = true <;>
    simp [purchaseSum, List.filter_append, h]

theorem salesSum_append (sos : List SalesOrder) (o : SalesOrder) (pid wid : Nat) :
    salesSum (sos ++ [o]) pid wid
      = salesSum sos pid wid
        + (if o.product_id == pid && o.warehouse_id == wid then o.quantity else 0) := by
  by_cases h : (o.product_id == pid && o.warehouse_id == wid) = true <;>
    simp [salesSum, List.filter_append, h]

/-! ## The ledger invariant -/

/-- The stock-ledger invariant: every (product, warehouse) quantity is
the accepted purchase total minus the accepted sales total for that
key, and is non-negative. -/
def LedgerInv (st : State) : Prop :=
  ∀ pid wid : Nat,
    getStock st.stock pid wid
        = purchaseSum st.purchaseOrders pid wid - salesSum st.salesOrders pid wid
      ∧ 0 ≤ getStock st.stock pid wid

theorem ledgerInv_applyOp (st : State) (op : Op) (h : LedgerInv st) :
    LedgerInv (applyOp st op) := by
  intro pid wid
  obtain ⟨heq, hge⟩ := h pid wid
  cases op with
  | purchase sid pid0 wid0 q =>
    cases q with
    | notAnInt => exact ⟨heq, hge⟩
    | intVal n =>
      by_cases hn : n ≤ 0
      · simp only [applyOp, purchase_orders_post, if_pos hn]
        exact ⟨heq, hge⟩
      · simp only [applyOp, purchase_orders_post, if_neg hn]
        by_cases hk : pid0 = pid ∧ wid0 = wid
        · obtain ⟨h1, h2⟩ := hk
          subst h1
          subst h2
          rw [getStock_upsertInc_self]
          refine ⟨?_, by omega⟩
          rw [purchaseSum_append]
          simp only [beq_self_eq_true, Bool.and_self, if_true]
          omega
        · rw [getStock_upsertInc_other _ _ _ _ _ _ hk]
          refine ⟨?_, hge⟩
          rw [purchaseSum_append]
          have hcond : ((pid0 == pid) && (wid0 == wid)) = false := by
            simp only [Bool.and_eq_false_iff, beq_eq_false_iff_ne, ne_eq]
            omega
          simp only [hcond, Bool.false_eq_true, if_false]
          omega
  | sale pid0 wid0 q cust =>
    cases q with
    | notAnInt => exact ⟨heq, hge⟩
    | intVal n =>
      by_cases hn : n ≤ 0
      · simp only [applyOp, sales_orders_post, if_pos hn]
        exact ⟨heq, hge⟩
      · by_cases hav : getStock st.stock pid0 wid0 < n
        · simp only [applyOp, sales_orders_post, if_neg hn, if_pos hav]
          exact ⟨heq, hge⟩
        · simp only [applyOp, sales_orders_post, if_neg hn, if_neg hav]
          have hsome : (findStock st.stock pid0 wid0).isSome := by
            refine findStock_isSome_of_getStock_ne _ _ _ ?_
            omega
          by_cases hk : pid0 = pid ∧ wid0 = wid
          · obtain ⟨h1, h2⟩ := hk
            subst h1
            subst h2
            rw [getStock_updateIncFirst_of_some _ _ _ _ hsome]
            refine ⟨?_, by omega⟩
            rw [salesSum_append]
            simp only [beq_self_eq_true, Bool.and_self, if_true]
            omega
          · rw [getStock_updateIncFirst_other _ _ _ _ _ _ hk]
            refine ⟨?_, hge⟩
            rw [salesSum_append]
            have hcond : ((pid0 == pid) && (wid0 == wid)) = false := by
              simp only [Bool.and_eq_false_iff, beq_eq_false_iff_ne, ne_eq]
              omega
            simp only [hcond, Bool.false_eq_true, if_false]
            omega

theorem ledgerInv_runOps (st : State) (ops : List Op) (h : LedgerInv st) :
    LedgerInv (runOps st ops) := by
  induction ops generalizing st with
  | nil => exact h
  | cons op rest ih =>
    simp only [runOps, List.foldl_cons]
    exact ih (applyOp st op) (ledgerInv_applyOp st op h)

theorem ledgerInv_initState (prods : List Product) (sups : List Supplier)
    (whs : List Warehouse) : LedgerInv (initState prods sups whs) := by
  intro pid wid
  simp [initState, getStock, findStock, purchaseSum, salesSum, List.find?]

/-! ## Claim theorems -/

/-- C1: for every sequence of submitted purchase and sales orders run
from an empty ledger, the stock quantity stored for any
(product, warehouse) key equals the sum of the quantities of accepted
purchase orders for that key minus the sum of the quantities of
accepted sales orders for that key, and it is non-negative after every
operation (the statement quantifies over every sequence, hence over
every prefix). -/
theorem stock_eq_purchases_sub_sales (prods : List Product) (sups : List Supplier)
    (whs : List Warehouse) (ops : List Op) (pid wid : Nat) :
    getStock (runOps (initState prods sups whs) ops).stock pid wid
        = purchaseSum (runOps (initState prods sups whs) ops).purchaseOrders pid wid
            - salesSum (runOps (initState prods sups whs) ops).salesOrders pid wid
      ∧ 0 ≤ getStock (runOps (initState prods sups whs) ops).stock pid wid :=
  ledgerInv_runOps (initState prods sups whs) ops
    (ledgerInv_initState prods sups whs) pid wid

/-- C2: a sales order whose positive requested quantity exceeds the
available quantity for its key (a missing entry counting as 0) is
rejected with `insufficientStock`; the state is returned unchanged, so
the ledger quantity is the same and no sales order record is appended. -/
theorem sales_insufficient_rejected (st : State) (pid wid : Nat) (n : Int)
    (cust : String) (hn : 0 < n) (hgt : getStock st.stock pid wid < n) :
    sales_orders_post st pid wid (.intVal n) cust = (st, .error .insufficientStock)
      ∧ getStock (sales_orders_post st pid wid (.intVal n) cust).1.stock pid wid
          = getStock st.stock pid wid
      ∧ (sales_orders_post st pid wid (.intVal n) cust).1.salesOrders.length
          = st.salesOrders.length := by
  have hn' : ¬ n ≤ 0 := by omega
  simp [sales_orders_post, hn', hgt]

theorem sales_insufficient_rejected_witness :
    (0 : Int) < 1
      ∧ getStock (initState [] [] []).stock 1 1 < 1
      ∧ (sales_orders_post (initState [] [] []) 1 1 (.intVal 1) "cust"
            = (initState [] [] [], .error .insufficientStock)
          ∧ getStock (sales_orders_post (initState [] [] []) 1 1
              (.intVal 1) "cust").1.stock 1 1
            = getStock (initState [] [] []).stock 1 1
          ∧ (sales_orders_post (initState [] [] []) 1 1
              (.intVal 1) "cust").1.salesOrders.length
            = (initState [] [] []).salesOrders.length) :=
  ⟨by decide, by decide,
    sales_insufficient_rejected (initState [] [] []) 1 1 1 "cust"
      (by decide) (by decide)⟩

/-- C5: a sales order whose positive requested quantity exactly equals
the available quantity for its key is accepted (the record is appended
with status `DISPATCHED`) and the resulting ledger quantity for that
key is 0. -/
theorem sales_exact_quantity_accepted (st : State) (pid wid : Nat) (n : Int)
    (cust : String) (hn : 0 < n) (hav : getStock st.stock pid wid = n) :
    (sales_orders_post st pid wid (.intVal n) cust).2
          = .ok ⟨pid, wid, n, cust, "DISPATCHED"⟩
      ∧ getStock (sales_orders_post st pid wid (.intVal n) cust).1.stock pid wid = 0
      ∧ (sales_orders_post st pid wid (.intVal n) cust).1.salesOrders
          = st.salesOrders ++ [⟨pid, wid, n, cust, "DISPATCHED"⟩] := by
  have hn' : ¬ n ≤ 0 := by omega
  have hng : ¬ getStock st.stock pid wid < n := by omega
  have hsome : (findStock st.stock pid wid).isSome :=
    findStock_isSome_of_getStock_ne st.stock pid wid (by omega)
  refine ⟨by simp [sales_orders_post, hn', hng], ?_, by simp [sales_orders_post, hn', hng]⟩
  simp only [sales_orders_post, if_neg hn', if_neg hng]
  rw [getStock_updateIncFirst_of_some st.stock pid wid (-n) hsome]
  omega

theorem sales_exact_quantity_accepted_witness :
    (0 : Int) < 3
      ∧ getStock [(⟨1, 2, 3⟩ : StockEntry)] 1 2 = 3
      ∧ ((sales_orders_post ⟨[], [], [], [⟨1, 2, 3⟩], [], []⟩ 1 2
            (.intVal 3) "cust").2
          = .ok ⟨1, 2, 3, "cust", "DISPATCHED"⟩
        ∧ getStock (sales_orders_post ⟨[], [], [], [⟨1, 2, 3⟩], [], []⟩ 1 2
            (.intVal 3) "cust").1.stock 1 2 = 0
        ∧ (sales_orders_post ⟨[], [], [], [⟨1, 2, 3⟩], [], []⟩ 1 2
            (.intVal 3) "cust").1.salesOrders
          = [] ++ [⟨1, 2, 3, "cust", "DISPATCHED"⟩]) :=
  ⟨by decide, by decide,
    sales_exact_quantity_accepted ⟨[], [], [], [⟨1, 2, 3⟩], [], []⟩ 1 2 3 "cust"
      (by decide) (by decide)⟩

/-- C6: a purchase or sales order whose quantity is not a positive
integer — the parse failed, or the parsed value is zero or negative —
is rejected with `invalidQuantity` and the state is returned unchanged:
no ledger mutation and no order record appended. -/
theorem invalid_quantity_rejected (st : State) (sid pid wid : Nat) (q : QtyInput)
    (cust : String)
    (h : q = .notAnInt ∨ ∃ n : Int, q = .intVal n ∧ n ≤ 0) :
    purchase_orders_post st sid pid wid q = (st, .error .invalidQuantity)
      ∧ sales_orders_post st pid wid q cust = (st, .error .invalidQuantity) := by
  rcases h with h | ⟨n, hq, hn⟩
  · subst h
    exact ⟨rfl, rfl⟩
  · subst hq
    simp [purchase_orders_post, sales_orders_post, hn]

theorem invalid_quantity_rejected_witness :
    ((QtyInput.intVal 0) = QtyInput.notAnInt
        ∨ ∃ n : Int, (QtyInput.intVal 0) = QtyInput.intVal n ∧ n ≤ 0)
      ∧ (purchase_orders_post (initState [] [] []) 1 2 3 (.intVal 0)
            = (initState [] [] [], .error .invalidQuantity)
        ∧ sales_orders_post (initState [] [] []) 2 3 (.intVal 0) "cust"
            = (initState [] [] [], .error .invalidQuantity)) :=
  ⟨Or.inr ⟨0, rfl, by decide⟩,
    invalid_quantity_rejected (initState [] [] []) 1 2 3 (.intVal 0) "cust"
      (Or.inr ⟨0, rfl, by decide⟩)⟩

/-- C7: starting from any state in which (product P, warehouse W) has
no stock entry, submitting a purchase order of quantity 10 makes
`getStock P W` return 10, and a subsequent sales order of quantity 4
for customer `cust` makes `getStock P W` return 6. -/
theorem purchase_then_sale_round_trip (st : State) (S P W : Nat)
    (h : findStock st.stock P W = none) :
    getStock (purchase_orders_post st S P W (.intVal 10)).1.stock P W = 10
      ∧ getStock (sales_orders_post (purchase_orders_post st S P W (.intVal 10)).1
          P W (.intVal 4) "cust").1.stock P W = 6 := by
  have h0 : getStock st.stock P W = 0 := getStock_eq_zero_of_none st.stock P W h
  have hten : ¬ (10 : Int) ≤ 0 := by omega
  have hst1 :
      getStock (purchase_orders_post st S P W (.intVal 10)).1.stock P W = 10 := by
    simp only [purchase_orders_post, if_neg hten]
    rw [getStock_upsertInc_self]
    omega
  refine ⟨hst1, ?_⟩
  have hfour : ¬ (4 : Int) ≤ 0 := by omega
  have hng : ¬ getStock (purchase_orders_post st S P W (.intVal 10)).1.stock P W < 4 := by
    omega
  have hsome :
      (findStock (purchase_orders_post st S P W (.intVal 10)).1.stock P W).isSome :=
    findStock_isSome_of_getStock_ne _ P W (by omega)
  simp only [sales_orders_post, if_neg hfour, if_neg hng]
  rw [getStock_updateIncFirst_of_some _ P W (-4) hsome]
  omega

theorem purchase_then_sale_round_trip_witness :
    findStock (initState [] [] []).stock 5 7 = none
      ∧ (getStock (purchase_orders_post (initState [] [] []) 4 5 7
            (.intVal 10)).1.stock 5 7 = 10
        ∧ getStock (sales_orders_post (purchase_orders_post (initState [] [] []) 4 5 7
            (.intVal 10)).1 5 7 (.intVal 4) "cust").1.stock 5 7 = 6) :=
  ⟨by decide,
    purchase_then_sale_round_trip (initState [] [] []) 4 5 7 (by decide)⟩

/-- The spec's description of a product's total: the sum of the ledger
quantities over every warehouse that has an entry for the product
(missing entries contribute 0, a product with no entries totals 0). -/
def sumQtyAcrossWarehouses (stock : List StockEntry) (pid : Nat) : Int :=
  ((stock.filter (fun e => e.product_id == pid)).map (fun e => e.quantity)).sum

theorem totalQtyLoop_eq_sum (stock : List StockEntry) (pid : Nat) :
    totalQtyLoop stock pid = sumQtyAcrossWarehouses stock pid := by
  unfold totalQtyLoop aggregateTotalQty sumQtyAcrossWarehouses
  by_cases hm : (stock.filter (fun e => e.product_id == pid)).isEmpty
  · rw [List.isEmpty_iff] at hm
    simp [hm]
  · simp [hm]

/-- C4: the low-stock report lists exactly the products whose summed
quantity across all warehouses with an entry is strictly below the
product's reorder level (a total equal to the level is not listed),
and each listed item carries that total as its available quantity. -/
theorem low_stock_report_spec (st : State) :
    low_stock_report st
      = (st.products.filter
          (fun p => decide (sumQtyAcrossWarehouses st.stock p.id < p.reorder_level))).map
          (fun p =>
            ⟨p.sku, p.name, p.reorder_level, sumQtyAcrossWarehouses st.stock p.id⟩) := by
  unfold low_stock_report
  simp only [totalQtyLoop_eq_sum]
  induction st.products with
  | nil => rfl
  | cons p rest ih =>
    by_cases hp : sumQtyAcrossWarehouses st.stock p.id < p.reorder_level <;>
      simp [List.filterMap_cons, List.filter_cons, hp, ih]

/-- C10: the dashboard's low-stock count equals the number of items in
the low-stock report — the two independently coded loops classify the
same products as low-stock. -/
theorem dashboard_count_eq_report_length (st : State) :
    dashboard_low_stock_count st = (low_stock_report st).length := by
  unfold dashboard_low_stock_count low_stock_report
  induction st.products with
  | nil => rfl
  | cons p rest ih =>
    by_cases hp : totalQtyLoop st.stock p.id < p.reorder_level <;>
      simp [List.filterMap_cons, List.filter_cons, hp, ih]

/-! ## Category-totals lemmas -/

theorem lookupTotal_cons (kv : String × Int) (rest : List (String × Int))
    (c : String) :
    lookupTotal (kv :: rest) c = if kv.1 == c then kv.2 else lookupTotal rest c := by
  cases h : (kv.1 == c) <;> simp [lookupTotal, List.find?_cons, h]

theorem lookupTotal_map_update (acc : List (String × Int)) (c' c : String) (q : Int) :
    lookupTotal (acc.map (fun kv => if kv.1 == c' then (kv.1, kv.2 + q) else kv)) c
      = lookupTotal acc c
        + (if c' == c && acc.any (fun kv => kv.1 == c) then q else 0) := by
  induction acc with
  | nil => simp [lookupTotal]
  | cons kv rest ih =>
    rw [List.map_cons]
    by_cases h1 : kv.1 = c' <;> by_cases h2 : kv.1 = c
    · have hcc : c' = c := h1.symm.trans h2
      rw [if_pos (by simp [h1]), lookupTotal_cons, lookupTotal_cons]
      simp [h2, hcc, List.any_cons]
    · have hcc : ¬ c' = c := fun hc => h2 (h1.trans hc)
      rw [if_pos (by simp [h1]), lookupTotal_cons, lookupTotal_cons]
      have h2b : ((kv.1 : String) == c) = false := by simp [h2]
      simp only [h2b, Bool.false_eq_true, if_false]
      rw [ih]
      simp [hcc]
    · have hcc : ¬ c' = c := fun hc => h1 (h2.trans hc.symm)
      rw [if_neg (by simp [h1]), lookupTotal_cons, lookupTotal_cons]
      simp [h2, hcc]
    · rw [if_neg (by simp [h1]), lookupTotal_cons, lookupTotal_cons]
      have h2b : ((kv.1 : String) == c) = false := by simp [h2]
      simp only [h2b, Bool.false_eq_true, if_false]
      rw [ih, List.any_cons, h2b]
      simp only [Bool.false_or]

theorem lookupTotal_append_single (acc : List (String × Int)) (c' c : String)
    (q : Int) (h : acc.any (fun kv => kv.1 == c') = false) :
    lookupTotal (acc ++ [(c', q)]) c
      = lookupTotal acc c + (if c' == c then q else 0) := by
  by_cases hcc : c' = c
  · subst hcc
    have hnone : acc.find? (fun kv => kv.1 == c') = none := by
      rw [List.find?_eq_none]
      intro kv hkv
      have := List.any_eq_false.mp h kv hkv
      simpa using this
    simp [lookupTotal, List.find?_append, hnone, List.find?_cons]
  · simp only [lookupTotal, List.find?_append]
    cases hf : acc.find? (fun kv => kv.1 == c) with
    | some kv => simp [hf, hcc]
    | none => simp [hf, List.find?_cons, hcc, Ne.symm hcc]

theorem lookupTotal_addToTotals (acc : List (String × Int)) (c' c : String)
    (q : Int) :
    lookupTotal (addToTotals acc c' q) c
      = lookupTotal acc c + (if c' == c then q else 0) := by
  unfold addToTotals
  cases ha : acc.any (fun kv => kv.1 == c') with
  | true =>
    rw [if_pos (by simp [ha]), lookupTotal_map_update]
    by_cases hcc : c' = c
    · subst hcc
      simp [ha]
    · simp [hcc]
  | false =>
    rw [if_neg (by simp [ha]), lookupTotal_append_single acc c' c q ha]

theorem lookupTotal_fold (stock : List StockEntry) (l : List Product)
    (acc : List (String × Int)) (c : String) :
    lookupTotal
        (l.foldl (fun a p => addToTotals a (effCategory p) (totalQtyLoop stock p.id)) acc)
        c
      = lookupTotal acc c
        + ((l.filter (fun p => effCategory p == c)).map
            (fun p => totalQtyLoop stock p.id)).sum := by
  induction l generalizing acc with
  | nil => simp
  | cons p rest ih =>
    simp only [List.foldl_cons, List.filter_cons]
    rw [ih, lookupTotal_addToTotals]
    by_cases hc : effCategory p = c
    · simp [hc]
      ring
    · simp [hc]

/-- C8: for every state and every category name, the dashboard's
category aggregation stores for that name the sum, over all products
whose (defaulted) category is that name, of the product's stock summed
across all warehouses; a product with an unset or empty category
counts toward `Uncategorized` via `effCategory`. -/
theorem category_totals_spec (st : State) (c : String) :
    lookupTotal (category_totals st) c
      = ((st.products.filter (fun p => effCategory p == c)).map
          (fun p => sumQtyAcrossWarehouses st.stock p.id)).sum := by
  unfold category_totals
  rw [lookupTotal_fold]
  simp [lookupTotal, totalQtyLoop_eq_sum]

/-! ## Referential validation (C3) -/

/-- A state whose catalog is empty, so no supplier/product/warehouse id
resolves at all. -/
def emptyCatalogState : State := ⟨[], [], [], [], [], []⟩

/-- C3 counterexample: in a state where ids 1, 2, 3 resolve to no
supplier, product or warehouse, a purchase order naming them is
nevertheless accepted — the record is inserted and the ledger for
(product 2, warehouse 3) moves from 0 to 5 — contradicting the claim
that such an order is rejected before any ledger mutation with no
record appended. -/
theorem unknown_reference_purchase_still_accepted :
    findSupplierById emptyCatalogState 1 = none
      ∧ findProductById emptyCatalogState 2 = none
      ∧ findWarehouseById emptyCatalogState 3 = none
      ∧ getStock emptyCatalogState.stock 2 3 = 0
      ∧ (purchase_orders_post emptyCatalogState 1 2 3 (.intVal 5)).2
          = .ok ⟨1, 2, 3, 5, "RECEIVED"⟩
      ∧ getStock (purchase_orders_post emptyCatalogState 1 2 3
          (.intVal 5)).1.stock 2 3 = 5
      ∧ (purchase_orders_post emptyCatalogState 1 2 3
          (.intVal 5)).1.purchaseOrders.length = 1 :=
  ⟨rfl, rfl, rfl, rfl, rfl, rfl, rfl⟩

/-- C3 (amended): the handlers perform no referential validation.
Even when none of an order's ids resolves in the Catalog Store, a
purchase order with a positive integer quantity is accepted, appends
its record and increments the ledger; a sales order with a positive
integer quantity within the available stock is accepted, appends its
record and decrements the ledger. No `UnknownReference` rejection
exists in the code. -/
theorem orders_ignore_catalog_references (st : State) (sid pid wid : Nat)
    (n : Int) (cust : String)
    (_hs : findSupplierById st sid = none) (_hp : findProductById st pid = none)
    (_hw : findWarehouseById st wid = none) (hn : 0 < n)
    (hav : n ≤ getStock st.stock pid wid) :
    ((purchase_orders_post st sid pid wid (.intVal n)).2
          = .ok ⟨sid, pid, wid, n, "RECEIVED"⟩
      ∧ getStock (purchase_orders_post st sid pid wid (.intVal n)).1.stock pid wid
          = getStock st.stock pid wid + n
      ∧ (purchase_orders_post st sid pid wid (.intVal n)).1.purchaseOrders
          = st.purchaseOrders ++ [⟨sid, pid, wid, n, "RECEIVED"⟩])
    ∧ ((sales_orders_post st pid wid (.intVal n) cust).2
          = .ok ⟨pid, wid, n, cust, "DISPATCHED"⟩
      ∧ getStock (sales_orders_post st pid wid (.intVal n) cust).1.stock pid wid
          = getStock st.stock pid wid - n
      ∧ (sales_orders_post st pid wid (.intVal n) cust).1.salesOrders
          = st.salesOrders ++ [⟨pid, wid, n, cust, "DISPATCHED"⟩]) := by
  have hn' : ¬ n ≤ 0 := by omega
  have hng : ¬ getStock st.stock pid wid < n := by omega
  have hsome : (findStock st.stock pid wid).isSome :=
    findStock_isSome_of_getStock_ne st.stock pid wid (by omega)
  refine ⟨⟨by simp [purchase_orders_post, hn'], ?_,
      by simp [purchase_orders_post, hn']⟩,
    by simp [sales_orders_post, hn', hng], ?_,
      by simp [sales_orders_post, hn', hng]⟩
  · simp only [purchase_orders_post, if_neg hn']
    rw [getStock_upsertInc_self]
  · simp only [sales_orders_post, if_neg hn', if_neg hng]
    rw [getStock_updateIncFirst_of_some st.stock pid wid (-n) hsome]
    omega

theorem orders_ignore_catalog_references_witness :
    findSupplierById ⟨[], [], [], [⟨2, 3, 7⟩], [], []⟩ 1 = none
      ∧ findProductById ⟨[], [], [], [⟨2, 3, 7⟩], [], []⟩ 2 = none
      ∧ findWarehouseById ⟨[], [], [], [⟨2, 3, 7⟩], [], []⟩ 3 = none
      ∧ (0 : Int) < 5
      ∧ (5 : Int) ≤ getStock (⟨[], [], [], [⟨2, 3, 7⟩], [], []⟩ : State).stock 2 3
      ∧ (((purchase_orders_post ⟨[], [], [], [⟨2, 3, 7⟩], [], []⟩ 1 2 3
              (.intVal 5)).2 = .ok ⟨1, 2, 3, 5, "RECEIVED"⟩
          ∧ getStock (purchase_orders_post ⟨[], [], [], [⟨2, 3, 7⟩], [], []⟩ 1 2 3
              (.intVal 5)).1.stock 2 3
            = getStock (⟨[], [], [], [⟨2, 3, 7⟩], [], []⟩ : State).stock 2 3 + 5
          ∧ (purchase_orders_post ⟨[], [], [], [⟨2, 3, 7⟩], [], []⟩ 1 2 3
              (.intVal 5)).1.purchaseOrders
            = [] ++ [⟨1, 2, 3, 5, "RECEIVED"⟩])
        ∧ ((sales_orders_post ⟨[], [], [], [⟨2, 3, 7⟩], [], []⟩ 2 3
              (.intVal 5) "cust").2 = .ok ⟨2, 3, 5, "cust", "DISPATCHED"⟩
          ∧ getStock (sales_orders_post ⟨[], [], [], [⟨2, 3, 7⟩], [], []⟩ 2 3
              (.intVal 5) "cust").1.stock 2 3
            = getStock (⟨[], [], [], [⟨2, 3, 7⟩], [], []⟩ : State).stock 2 3 - 5
          ∧ (sales_orders_post ⟨[], [], [], [⟨2, 3, 7⟩], [], []⟩ 2 3
              (.intVal 5) "cust").1.salesOrders
            = [] ++ [⟨2, 3, 5, "cust", "DISPATCHED"⟩])) :=
  ⟨by decide, by decide, by decide, by decide, by decide,
    orders_ignore_catalog_references ⟨[], [], [], [⟨2, 3, 7⟩], [], []⟩ 1 2 3 5
      "cust" (by decide) (by decide) (by decide) (by decide) (by decide)⟩

/-! ## Concurrency model for the sales path (C9) -/

/-- The availability check of the sales handler in isolation
(app.py:349-352): the `find_one` read plus the local comparison
`quantity_val > available_qty`; `true` means the order proceeds. -/
def salesCheckPasses (st : State) (pid wid : Nat) (n : Int) : Bool :=
  !(decide (getStock st.stock pid wid < n))

/-- The commit half of the sales handler (app.py:356-368): insert the
order record, then `$inc` the stock level by the negated quantity. -/
def salesCommit (st : State) (pid wid : Nat) (n : Int) (cust : String) : State :=
  { st with
    salesOrders := st.salesOrders ++ [⟨pid, wid, n, cust, "DISPATCHED"⟩],
    stock := updateIncFirst st.stock pid wid (-n) }

/-- The sequential sales handler is exactly the check followed by the
commit: the split into `salesCheckPasses` and `salesCommit` introduces
no behaviour of its own. -/
theorem sales_orders_post_eq_check_commit (st : State) (pid wid : Nat) (n : Int)
    (cust : String) (hn : 0 < n) :
    sales_orders_post st pid wid (.intVal n) cust
      = if salesCheckPasses st pid wid n then
          (salesCommit st pid wid n cust, .ok ⟨pid, wid, n, cust, "DISPATCHED"⟩)
        else
          (st, .error .insufficientStock) := by
  have hn' : ¬ n ≤ 0 := by omega
  by_cases hav : getStock st.stock pid wid < n <;>
    simp [sales_orders_post, salesCheckPasses, salesCommit, hn', hav]

/-- One allowed interleaving of two concurrent sales-order POSTs for
the same key: each primitive — the `find_one` availability read
(app.py:349), the `insert_one` (app.py:363) and the `update_one`
decrement (app.py:365) — is a single atomic MongoDB operation, but the
code takes no lock and opens no transaction spanning them, so both
handlers may perform their read before either writes.  Program order
inside each handler is preserved. -/
def twoSalesRace (st : State) (pid wid : Nat) (n1 n2 : Int)
    (c1 c2 : String) : State :=
  let pass1 := salesCheckPasses st pid wid n1
  let pass2 := salesCheckPasses st pid wid n2
  let st1 := if pass1 then salesCommit st pid wid n1 c1 else st
  if pass2 then salesCommit st1 pid wid n2 c2 else st1

/-- The initial state for the C9 race: stock 5 for (product 1,
warehouse 1). -/
def c9State : State := ⟨[], [], [], [⟨1, 1, 5⟩], [], []⟩

/-- C9 is violated by the code: with 5 units available, two concurrent
sales orders of 4 units each whose availability reads both precede the
writes are BOTH accepted — two records are appended although their
combined quantity 8 exceeds the available 5 — and the final ledger
quantity is -3, which is negative. The check and the decrement are not
one atomic unit. -/
theorem two_sales_race_oversells :
    getStock c9State.stock 1 1 = 5
      ∧ (4 : Int) + 4 > 5
      ∧ (twoSalesRace c9State 1 1 4 4 "alice" "bob").salesOrders.length = 2
      ∧ getStock (twoSalesRace c9State 1 1 4 4 "alice" "bob").stock 1 1 = -3
      ∧ getStock (twoSalesRace c9State 1 1 4 4 "alice" "bob").stock 1 1 < 0 := by
  decide

end Inventory
